import Mathlib

set_option autoImplicit false

/-!
A verification development of the reusable-pattern block renderer fragment:
the edit-mode propagator over block trees (`setBlockEditMode`), the
render-outcome selection of `ReusableBlockEdit`, and the render-path
recursion guard used by `ReusableBlockEditRecursionWrapper`.
-/

/-- The block type name of a nested template reference (the pattern block).
Modelled from the spec: the constant `patternBlockName` is imported from
`./index`, which is not part of the fragment; only equality against it
matters, so a fixed string suffices. -/
def patternBlockName : String := "core/block"

/-- One node of a block tree: client id, block type name, the value of the
external `isOverridableBlock` classifier on this node, and inner blocks.
The classifier is an opaque external collaborator, so its per-node value
is carried as a field. -/
inductive Block : Type where
  | mk : Nat → String → Bool → List Block → Block

def Block.clientId : Block → Nat
  | .mk i _ _ _ => i

def Block.name : Block → String
  | .mk _ n _ _ => n

/-- Value of `isOverridableBlock( block )` on this node. -/
def Block.overridable : Block → Bool
  | .mk _ _ o _ => o

def Block.innerBlocks : Block → List Block
  | .mk _ _ _ bs => bs

/-- JavaScript `mode || fallback` where `mode` is `undefined` or a string:
`undefined` and the empty string are falsy, any other string is truthy. -/
def jsOr (mode : Option String) (fallback : String) : String :=
  match mode with
  | none => fallback
  | some s => if s = "" then fallback else s

mutual

/-- The body of the `forEach` in `setBlockEditMode`, for one block: emits
the write `setEditMode( block.clientId, editMode )` with
`editMode = mode || ( isOverridableBlock( block ) ? `contentOnly` : `disabled` )`,
then recurses into `block.innerBlocks` with the mode replaced by
``disabled`` when `block.name === patternBlockName` (nested patterns). -/
def setBlockEditModeOne (b : Block) (mode : Option String) :
    List (Nat × String) :=
  match b with
  | .mk cid nm ov inner =>
    (cid, jsOr mode (if ov then "contentOnly" else "disabled")) ::
      setBlockEditMode inner
        (if nm = patternBlockName then some "disabled" else mode)

/-- The function `setBlockEditMode( setEditMode, blocks, mode )`: the
ordered sequence of `setEditMode( clientId, editMode )` writes it
performs over the tree. -/
def setBlockEditMode (blocks : List Block) (mode : Option String) :
    List (Nat × String) :=
  match blocks with
  | [] => []
  | b :: bs => setBlockEditModeOne b mode ++ setBlockEditMode bs mode

end

mutual

/-- Preorder client ids of one block and its subtree. -/
def nodeIdsOne (b : Block) : List Nat :=
  match b with
  | .mk cid _ _ inner => cid :: nodeIds inner

/-- Preorder client ids of a forest. -/
def nodeIds (blocks : List Block) : List Nat :=
  match blocks with
  | [] => []
  | b :: bs => nodeIdsOne b ++ nodeIds bs

end

/-- The mode argument actually reaching a node when the top-level call is
made with `undefined`: it is ``disabled`` exactly when some proper ancestor
is a nested template reference, and `undefined` otherwise. -/
def modeOf (forced : Bool) : Option String :=
  if forced then some "disabled" else none

mutual

/-- Rule-based rendering of the amended propagation policy, for one node.
The flag `forced` states that the node sits below a nested template
reference (or that the whole invocation was forced). A forced node is
assigned `disabled`; an unforced overridable node `contentOnly`; any other
node `disabled`. Children of a template reference are always forced. -/
def propagateSpecOne (forced : Bool) (b : Block) : List (Nat × String) :=
  match b with
  | .mk cid nm ov inner =>
    (cid,
      if forced then "disabled"
      else if ov then "contentOnly" else "disabled") ::
      propagateSpec (forced || nm == patternBlockName) inner

/-- Rule-based rendering of the amended propagation policy, for a forest. -/
def propagateSpec (forced : Bool) (blocks : List Block) :
    List (Nat × String) :=
  match blocks with
  | [] => []
  | b :: bs => propagateSpecOne forced b ++ propagateSpec forced bs

end

/-- The mode argument of the `setBlockEditMode` call in the
`useEffect` of `ReusableBlockEdit`:
`editingMode === `disabled` || ! hasPatternOverridesSource ? `disabled` : undefined`. -/
def patternInnerMode (editingMode : String)
    (hasPatternOverridesSource : Bool) : Option String :=
  if editingMode = "disabled" || !hasPatternOverridesSource then
    some "disabled"
  else
    none

/-- The full effect body: sync the editing mode of the pattern block with
its inner blocks. -/
def syncInnerBlocksEditMode (innerBlocks : List Block)
    (editingMode : String) (hasPatternOverridesSource : Bool) :
    List (Nat × String) :=
  setBlockEditMode innerBlocks
    (patternInnerMode editingMode hasPatternOverridesSource)

/-- The three bodies `ReusableBlockEdit` can render. -/
inductive PatternChildren : Type where
  | normalInnerBlocks : PatternChildren
  | missingWarning : PatternChildren
  | loadingPlaceholder : PatternChildren
deriving DecidableEq

/-- The flag `isMissing = hasResolved && ! record`. -/
def isMissing (hasResolved : Bool) (recordPresent : Bool) : Bool :=
  hasResolved && !recordPresent

/-- The outcome selection of `ReusableBlockEdit`: `children` starts `null`,
is replaced by the deletion warning when `isMissing`, then by the loading
placeholder when `! hasResolved`; a `null` result renders the inner blocks. -/
def reusableBlockChildren (hasResolved : Bool) (recordPresent : Bool) :
    PatternChildren :=
  let children := PatternChildren.normalInnerBlocks
  let children :=
    if isMissing hasResolved recordPresent then
      PatternChildren.missingWarning
    else children
  let children :=
    if !hasResolved then PatternChildren.loadingPlaceholder else children
  children

namespace RecursionGuard

/-- Modelled from the spec: the RenderPath, the ordered collection of
template identifiers currently being expanded on the active render path
(`RecursionProvider` / `useHasRecursion` are not part of the fragment). -/
def RenderPath : Type := List String

/-- Modelled from the spec: `enter( templateId )` returns `false` with no
mutation when the identifier is already present, otherwise inserts it and
returns `true`. -/
def enter (t : String) (path : List String) : Bool × List String :=
  if t ∈ path then (false, path) else (true, t :: path)

/-- Modelled from the spec: `exit( templateId )` removes the identifier
from the RenderPath. -/
def exit (t : String) (path : List String) : List String :=
  path.erase t

end RecursionGuard

/-- Modelled from the spec: `useHasRecursion( ref )` is a read-only
membership check of `ref` in the current RenderPath. -/
def useHasRecursion (path : List String) (ref : String) : Bool :=
  decide (ref ∈ path)

/-- Result of rendering the pattern block wrapper: either the recursion
warning, or expansion of the template with `ref` registered on the path. -/
inductive WrapperResult : Type where
  | recursionWarning : WrapperResult
  | expandedWithPath : List String → WrapperResult
deriving DecidableEq

/-- The component `ReusableBlockEditRecursionWrapper`: renders
`RecursionWarning` when `useHasRecursion( ref )` holds, else wraps the
edit component in a `RecursionProvider` with unique id `ref`,
registering `ref` for descendants. -/
def reusableBlockEditRecursionWrapper (path : List String) (ref : String) :
    WrapperResult :=
  if useHasRecursion path ref then
    WrapperResult.recursionWarning
  else
    WrapperResult.expandedWithPath (RecursionGuard.enter ref path).2

/-- A template-reference tree to be rendered: an identifier and the nested
references it expands to. -/
inductive RenderTree : Type where
  | node : String → List RenderTree → RenderTree

/-- Observable actions of the recursion guard during one render. -/
inductive GuardEvent : Type where
  | entered : String → Bool → GuardEvent
  | exited : String → GuardEvent
deriving DecidableEq

mutual

/-- Modelled from the spec: one scoped render step. `fuel = 0` means the
render of this subtree is abandoned (cancellation / unmount) before its
guard is entered. A failed `enter` renders the fallback and stops. A
successful `enter` is always paired with the `exit` performed when the
scope unwinds, even when the children below were abandoned. Returns the
emitted guard events and the final RenderPath. -/
def renderScoped (fuel : Nat) (tree : RenderTree) (path : List String) :
    List GuardEvent × List String :=
  match fuel, tree with
  | 0, _ => ([], path)
  | fuel + 1, .node t children =>
    let r := RecursionGuard.enter t path
    if r.1 then
      let rc := renderScopedList fuel children r.2
      (GuardEvent.entered t true :: rc.1 ++ [GuardEvent.exited t],
        RecursionGuard.exit t rc.2)
    else
      ([GuardEvent.entered t false], r.2)

/-- Modelled from the spec: scoped render of a list of sibling subtrees. -/
def renderScopedList (fuel : Nat) (trees : List RenderTree)
    (path : List String) : List GuardEvent × List String :=
  match trees with
  | [] => ([], path)
  | c :: cs =>
    let r1 := renderScoped fuel c path
    let r2 := renderScopedList fuel cs r1.2
    (r1.1 ++ r2.1, r2.2)

end

/-- Number of `enter` calls on `t` that returned `true` in a trace. -/
def countTrueEnters (t : String) (evs : List GuardEvent) : Nat :=
  evs.count (GuardEvent.entered t true)

/-- Number of `exit` calls on `t` in a trace. -/
def countExits (t : String) (evs : List GuardEvent) : Nat :=
  evs.count (GuardEvent.exited t)

mutual

theorem allDisabledOne (b : Block) :
    ∀ p ∈ setBlockEditModeOne b (some "disabled"), p.2 = "disabled" := by
  match b with
  | .mk cid nm ov inner =>
    intro p hp
    rw [setBlockEditModeOne] at hp
    rcases List.mem_cons.mp hp with h | h
    · subst h; rfl
    · split at h
      · exact allDisabledList inner p h
      · exact allDisabledList inner p h

theorem allDisabledList (bs : List Block) :
    ∀ p ∈ setBlockEditMode bs (some "disabled"), p.2 = "disabled" := by
  match bs with
  | [] => intro p hp; rw [setBlockEditMode] at hp; cases hp
  | b :: rest =>
    intro p hp
    rw [setBlockEditMode] at hp
    rcases List.mem_append.mp hp with h | h
    · exact allDisabledOne b p h
    · exact allDisabledList rest p h

end

mutual

theorem idsOne (b : Block) (mode : Option String) :
    (setBlockEditModeOne b mode).map Prod.fst = nodeIdsOne b := by
  match b with
  | .mk cid nm ov inner =>
    rw [setBlockEditModeOne, nodeIdsOne]
    simp only [List.map_cons]
    exact congrArg (List.cons cid)
      (idsList inner (if nm = patternBlockName then some "disabled" else mode))

theorem idsList (bs : List Block) (mode : Option String) :
    (setBlockEditMode bs mode).map Prod.fst = nodeIds bs := by
  match bs with
  | [] => rw [setBlockEditMode, nodeIds]; rfl
  | b :: rest =>
    rw [setBlockEditMode, nodeIds, List.map_append, idsOne b mode,
      idsList rest mode]

end

mutual

theorem valuesOne (b : Block) (mode : Option String)
    (hm : mode = none ∨ mode = some "disabled") :
    ∀ p ∈ setBlockEditModeOne b mode,
      p.2 = "contentOnly" ∨ p.2 = "disabled" := by
  match b with
  | .mk cid nm ov inner =>
    intro p hp
    rw [setBlockEditModeOne] at hp
    rcases List.mem_cons.mp hp with h | h
    · subst h
      rcases hm with rfl | rfl
      · cases ov <;> simp [jsOr]
      · simp [jsOr]
    · split at h
      · exact valuesList inner (some "disabled") (Or.inr rfl) p h
      · exact valuesList inner mode hm p h

theorem valuesList (bs : List Block) (mode : Option String)
    (hm : mode = none ∨ mode = some "disabled") :
    ∀ p ∈ setBlockEditMode bs mode,
      p.2 = "contentOnly" ∨ p.2 = "disabled" := by
  match bs with
  | [] => intro p hp; rw [setBlockEditMode] at hp; cases hp
  | b :: rest =>
    intro p hp
    rw [setBlockEditMode] at hp
    rcases List.mem_append.mp hp with h | h
    · exact valuesOne b mode hm p h
    · exact valuesList rest mode hm p h

end

mutual

theorem refineOne (b : Block) (forced : Bool) :
    setBlockEditModeOne b (modeOf forced) = propagateSpecOne forced b := by
  match b with
  | .mk cid nm ov inner =>
    rw [setBlockEditModeOne, propagateSpecOne]
    by_cases h : nm = patternBlockName
    · have hc : setBlockEditMode inner (some "disabled") =
          propagateSpec (forced || (nm == patternBlockName)) inner := by
        have := refineList inner true
        simp only [modeOf, if_pos trivial] at this
        simp [h, this]
      cases forced <;> simp [modeOf, jsOr, h, hc]
    · have hb : (nm == patternBlockName) = false := by simp [h]
      have hc : setBlockEditMode inner (modeOf forced) =
          propagateSpec (forced || (nm == patternBlockName)) inner := by
        rw [hb, Bool.or_false]
        exact refineList inner forced
      cases forced <;> simp [modeOf, jsOr, h] <;>
        simpa [modeOf] using hc

theorem refineList (bs : List Block) (forced : Bool) :
    setBlockEditMode bs (modeOf forced) = propagateSpec forced bs := by
  match bs with
  | [] => rw [setBlockEditMode, propagateSpec]
  | b :: rest =>
    rw [setBlockEditMode, propagateSpec, refineOne b forced,
      refineList rest forced]

end

theorem enter_of_mem {t : String} {path : List String} (h : t ∈ path) :
    RecursionGuard.enter t path = (false, path) := by
  simp [RecursionGuard.enter, h]

theorem enter_of_not_mem {t : String} {path : List String} (h : t ∉ path) :
    RecursionGuard.enter t path = (true, t :: path) := by
  simp [RecursionGuard.enter, h]

theorem exit_enter {t : String} {path : List String} (h : t ∉ path) :
    RecursionGuard.exit t (RecursionGuard.enter t path).2 = path := by
  rw [enter_of_not_mem h]
  simp [RecursionGuard.exit]

mutual

theorem renderScoped_path (fuel : Nat) (tree : RenderTree)
    (path : List String) : (renderScoped fuel tree path).2 = path := by
  match fuel, tree with
  | 0, tr => rw [renderScoped]
  | fuel + 1, .node t children =>
    rw [renderScoped]
    by_cases h : t ∈ path
    · simp [enter_of_mem h]
    · have hrec := renderScopedList_path fuel children (t :: path)
      simp [enter_of_not_mem h, hrec, RecursionGuard.exit]

theorem renderScopedList_path (fuel : Nat) (trees : List RenderTree)
    (path : List String) : (renderScopedList fuel trees path).2 = path := by
  match trees with
  | [] => rw [renderScopedList]
  | c :: cs =>
    rw [renderScopedList]
    have h1 := renderScoped_path fuel c path
    have h2 := renderScopedList_path fuel cs (renderScoped fuel c path).2
    simp only []
    rw [h2, h1]

end

mutual

theorem renderScoped_balanced (fuel : Nat) (tree : RenderTree)
    (path : List String) (t : String) :
    countExits t (renderScoped fuel tree path).1 =
      countTrueEnters t (renderScoped fuel tree path).1 := by
  match fuel, tree with
  | 0, tr => rw [renderScoped]; rfl
  | fuel + 1, .node s children =>
    rw [renderScoped]
    by_cases h : s ∈ path
    · simp [enter_of_mem h, countExits, countTrueEnters]
    · have hrec := renderScopedList_balanced fuel children (s :: path) t
      simp only [countExits, countTrueEnters] at hrec ⊢
      rcases eq_or_ne s t with rfl | hst
      · simp [enter_of_not_mem h, List.count_cons, List.count_append, hrec]
      · simp [enter_of_not_mem h, List.count_cons, List.count_append,
          hst, hrec]

theorem renderScopedList_balanced (fuel : Nat) (trees : List RenderTree)
    (path : List String) (t : String) :
    countExits t (renderScopedList fuel trees path).1 =
      countTrueEnters t (renderScopedList fuel trees path).1 := by
  match trees with
  | [] => rw [renderScopedList]; rfl
  | c :: cs =>
    rw [renderScopedList]
    have h1 := renderScoped_balanced fuel c path t
    have h2 :=
      renderScopedList_balanced fuel cs (renderScoped fuel c path).2 t
    simp only [countExits, countTrueEnters, List.count_append] at h1 h2 ⊢
    rw [h1, h2]

end

/-- C1: when `setBlockEditMode` is invoked with mode ``disabled``
(the spec case of `overridesEnabled = false`), every node of the tree is
assigned ``disabled``, regardless of its overridable flag. -/
theorem propagate_disabled_assigns_disabled_everywhere
    (blocks : List Block) :
    ∀ p ∈ setBlockEditMode blocks (some "disabled"), p.2 = "disabled" :=
  allDisabledList blocks

/-- Witness for C1 at a concrete tree with an overridable node. -/
theorem propagate_disabled_assigns_disabled_everywhere_witness :
    ((2 : Nat), "disabled") ∈
      setBlockEditMode
        [Block.mk 1 patternBlockName false
          [Block.mk 2 "core/paragraph" true []]] (some "disabled") ∧
    (((2 : Nat), "disabled") : Nat × String).2 = "disabled" :=
  ⟨by decide,
    propagate_disabled_assigns_disabled_everywhere
      [Block.mk 1 patternBlockName false
        [Block.mk 2 "core/paragraph" true []]]
      (2, "disabled") (by decide)⟩

/-- C2 counterexample: with mode `undefined`, an overridable paragraph
nested inside a pattern-reference block is assigned ``disabled``, not
``contentOnly``, although the classifier returns true for it. -/
theorem overridable_node_inside_nested_pattern_gets_disabled :
    Block.overridable (Block.mk 2 "core/paragraph" true []) = true ∧
    setBlockEditMode
        [Block.mk 1 patternBlockName false
          [Block.mk 2 "core/paragraph" true []]] none =
      [(1, "disabled"), (2, "disabled")] ∧
    ((2 : Nat), "contentOnly") ∉
      setBlockEditMode
        [Block.mk 1 patternBlockName false
          [Block.mk 2 "core/paragraph" true []]] none := by
  refine ⟨rfl, by decide, by decide⟩

/-- C2 (amended): with mode `undefined`, `setBlockEditMode` realises the
classification of `propagateSpec` with no initial forcing: ``contentOnly``
exactly for overridable nodes that are not below a nested template
reference, ``disabled`` for every other node. -/
theorem propagate_no_override_matches_forced_classification
    (blocks : List Block) :
    setBlockEditMode blocks none = propagateSpec false blocks := by
  have h := refineList blocks false
  simpa [modeOf] using h

/-- C3 counterexample: an overridable pattern-reference block sitting
inside another pattern-reference block is assigned ``disabled``, not
``contentOnly``, with mode `undefined` at the top call. -/
theorem overridable_pattern_under_pattern_not_contentOnly :
    Block.name (Block.mk 2 patternBlockName true []) = patternBlockName ∧
    Block.overridable (Block.mk 2 patternBlockName true []) = true ∧
    setBlockEditMode
        [Block.mk 1 patternBlockName false
          [Block.mk 2 patternBlockName true []]] none =
      [(1, "disabled"), (2, "disabled")] ∧
    ((2 : Nat), "contentOnly") ∉
      setBlockEditMode
        [Block.mk 1 patternBlockName false
          [Block.mk 2 patternBlockName true []]] none := by
  refine ⟨rfl, rfl, by decide, by decide⟩

/-- C3 (amended): an overridable pattern-reference node reached with no
supplied mode is itself assigned ``contentOnly``, while every write in its
subtree below it is ``disabled``, overridable descendants included. -/
theorem overridable_pattern_reference_contentOnly_children_disabled
    (b : Block) (h1 : b.name = patternBlockName)
    (h2 : b.overridable = true) :
    (setBlockEditModeOne b none).head? = some (b.clientId, "contentOnly") ∧
    ∀ p ∈ (setBlockEditModeOne b none).tail, p.2 = "disabled" := by
  match b with
  | .mk cid nm ov inner =>
    have h1' : nm = patternBlockName := h1
    have h2' : ov = true := h2
    rw [setBlockEditModeOne]
    constructor
    · simp [h2', jsOr, Block.clientId]
    · intro p hp
      simp only [List.tail_cons] at hp
      rw [if_pos h1'] at hp
      exact allDisabledList inner p hp

/-- Witness for the amended C3 at a concrete overridable pattern block
with an overridable child. -/
theorem overridable_pattern_reference_contentOnly_witness :
    (setBlockEditModeOne
        (Block.mk 5 patternBlockName true
          [Block.mk 6 "core/paragraph" true []]) none).head? =
      some ((5 : Nat), "contentOnly") :=
  (overridable_pattern_reference_contentOnly_children_disabled
    (Block.mk 5 patternBlockName true [Block.mk 6 "core/paragraph" true []])
    rfl rfl).1

/-- C7 counterexample: a node with the classifier true that is reached
with the supplied mode ``disabled`` is assigned ``disabled``, not
``contentOnly``: the supplied mode wins over the overridable rule. -/
theorem overridable_node_with_supplied_mode_not_contentOnly :
    Block.overridable (Block.mk 1 "core/paragraph" true []) = true ∧
    setBlockEditMode [Block.mk 1 "core/paragraph" true []]
        (some "disabled") =
      [(1, "disabled")] ∧
    ("disabled" : String) ≠ "contentOnly" := by
  refine ⟨rfl, by decide, by decide⟩

/-- C7 (amended): when the caller supplies a (truthy) explicit mode,
`setBlockEditMode` assigns that mode to the node even when the node is
overridable: the supplied-mode clause takes precedence over the
overridable rule. -/
theorem supplied_mode_takes_precedence (b : Block) (rest : List Block)
    (s : String) (hs : s ≠ "") (hov : b.overridable = true) :
    (setBlockEditMode (b :: rest) (some s)).head? =
      some (b.clientId, s) := by
  match b with
  | .mk cid nm ov inner =>
    rw [setBlockEditMode, setBlockEditModeOne]
    simp [jsOr, hs, Block.clientId]

/-- Witness for the amended C7 at a concrete overridable node with
supplied mode ``disabled``. -/
theorem supplied_mode_takes_precedence_witness :
    (setBlockEditMode [Block.mk 1 "core/paragraph" true []]
        (some "disabled")).head? =
      some ((1 : Nat), "disabled") :=
  supplied_mode_takes_precedence (Block.mk 1 "core/paragraph" true []) []
    "disabled" (by decide) rfl

/-- C9: for any tree and any supplied mode, `disabled` or `undefined`,
the propagator performs exactly one write per node of the tree (in
preorder), and every written value is ``contentOnly`` or ``disabled`` -
the unset mode is never written. -/
theorem propagator_writes_each_node_once_valid_modes
    (blocks : List Block) (mode : Option String)
    (hm : mode = none ∨ mode = some "disabled") :
    (setBlockEditMode blocks mode).map Prod.fst = nodeIds blocks ∧
    ∀ p ∈ setBlockEditMode blocks mode,
      p.2 = "contentOnly" ∨ p.2 = "disabled" :=
  ⟨idsList blocks mode, valuesList blocks mode hm⟩

/-- Witness for C9 at a concrete tree with mode `undefined`. -/
theorem propagator_writes_each_node_once_valid_modes_witness :
    (setBlockEditMode
        [Block.mk 1 patternBlockName false
          [Block.mk 2 "core/paragraph" true []]] none).map Prod.fst =
      nodeIds
        [Block.mk 1 patternBlockName false
          [Block.mk 2 "core/paragraph" true []]] :=
  (propagator_writes_each_node_once_valid_modes
    [Block.mk 1 patternBlockName false [Block.mk 2 "core/paragraph" true []]]
    none (Or.inl rfl)).1

/-- C10: the inner blocks are synced with the forced mode ``disabled``
exactly when the pattern block itself is disabled or the
`core/pattern-overrides` bindings source is absent; otherwise the mode is
`undefined` and per-node classification applies. -/
theorem pattern_sync_forced_exactly_when (innerBlocks : List Block)
    (em : String) (hs : Bool) :
    (patternInnerMode em hs = some "disabled" ↔
      em = "disabled" ∨ hs = false) ∧
    ((em = "disabled" ∨ hs = false) →
      syncInnerBlocksEditMode innerBlocks em hs =
        setBlockEditMode innerBlocks (some "disabled")) ∧
    (¬(em = "disabled" ∨ hs = false) →
      patternInnerMode em hs = none ∧
      syncInnerBlocksEditMode innerBlocks em hs =
        setBlockEditMode innerBlocks none) := by
  by_cases h1 : em = "disabled" <;> cases hs <;>
    simp [patternInnerMode, syncInnerBlocksEditMode, h1]

/-- Witness for C10: forced sync when disabled, classification sync when
enabled, at a concrete inner tree. -/
theorem pattern_sync_forced_exactly_when_witness :
    syncInnerBlocksEditMode [Block.mk 1 "core/paragraph" true []]
        "disabled" true =
      setBlockEditMode [Block.mk 1 "core/paragraph" true []]
        (some "disabled") ∧
    syncInnerBlocksEditMode [Block.mk 1 "core/paragraph" true []]
        "default" true =
      setBlockEditMode [Block.mk 1 "core/paragraph" true []] none :=
  ⟨(pattern_sync_forced_exactly_when [Block.mk 1 "core/paragraph" true []]
      "disabled" true).2.1 (Or.inl rfl),
    ((pattern_sync_forced_exactly_when [Block.mk 1 "core/paragraph" true []]
      "default" true).2.2 (by decide)).2⟩

/-- C6: the renderer separates the three store outcomes: an unresolved
fetch renders the loading placeholder whether or not a record is present,
a resolved fetch without a record renders the deletion warning, and a
resolved fetch with a record renders the inner blocks; the three render
results are pairwise distinct. -/
theorem reusable_block_outcomes_distinct :
    (∀ recordPresent : Bool,
      reusableBlockChildren false recordPresent =
        PatternChildren.loadingPlaceholder) ∧
    reusableBlockChildren true false = PatternChildren.missingWarning ∧
    reusableBlockChildren true true = PatternChildren.normalInnerBlocks ∧
    PatternChildren.loadingPlaceholder ≠ PatternChildren.missingWarning ∧
    PatternChildren.loadingPlaceholder ≠
      PatternChildren.normalInnerBlocks ∧
    PatternChildren.missingWarning ≠ PatternChildren.normalInnerBlocks := by
  decide

/-- C4: the wrapper renders the recursion warning exactly when the
template id is already active on the RenderPath; otherwise the guard
registers it and the template is expanded. The result is always one of
these two benign outcomes, never a failure. -/
theorem recursion_wrapper_cycle_handling (path : List String)
    (t : String) :
    (t ∈ path → reusableBlockEditRecursionWrapper path t =
      WrapperResult.recursionWarning) ∧
    (t ∉ path →
      (RecursionGuard.enter t path).1 = true ∧
      reusableBlockEditRecursionWrapper path t =
        WrapperResult.expandedWithPath (t :: path)) ∧
    (reusableBlockEditRecursionWrapper path t =
        WrapperResult.recursionWarning ∨
      reusableBlockEditRecursionWrapper path t =
        WrapperResult.expandedWithPath (t :: path)) := by
  by_cases h : t ∈ path
  · refine ⟨fun _ => ?_, fun hn => absurd h hn, Or.inl ?_⟩ <;>
      simp [reusableBlockEditRecursionWrapper, useHasRecursion, h]
  · refine ⟨fun hm => absurd hm h, fun _ => ⟨?_, ?_⟩, Or.inr ?_⟩ <;>
      simp [reusableBlockEditRecursionWrapper, useHasRecursion, h,
        RecursionGuard.enter]

/-- Witness for C4: a self-reference renders the warning, a fresh
reference expands with the id registered. -/
theorem recursion_wrapper_cycle_handling_witness :
    reusableBlockEditRecursionWrapper ["A"] "A" =
      WrapperResult.recursionWarning ∧
    reusableBlockEditRecursionWrapper [] "A" =
      WrapperResult.expandedWithPath ["A"] :=
  ⟨(recursion_wrapper_cycle_handling ["A"] "A").1 (by decide),
    ((recursion_wrapper_cycle_handling [] "A").2.1 (by decide)).2⟩

/-- C5: `enter` returns `false` with no mutation when the id is present
and inserts it returning `true` otherwise; hence entering twice without an
intervening `exit` yields `true` then `false`, and enter, exit, enter
yields `true` both times. -/
theorem enter_exit_guard_properties (t : String) (path : List String) :
    (t ∈ path → RecursionGuard.enter t path = (false, path)) ∧
    (t ∉ path →
      (RecursionGuard.enter t path).1 = true ∧
      t ∈ (RecursionGuard.enter t path).2 ∧
      (RecursionGuard.enter t (RecursionGuard.enter t path).2).1 = false ∧
      (RecursionGuard.enter t
        (RecursionGuard.exit t (RecursionGuard.enter t path).2)).1 =
        true) := by
  constructor
  · intro h; exact enter_of_mem h
  · intro h
    rw [enter_of_not_mem h]
    refine ⟨rfl, List.mem_cons_self t path, ?_, ?_⟩
    · simp [RecursionGuard.enter]
    · have he : RecursionGuard.exit t ((true, t :: path) :
          Bool × List String).2 = path := by
        simp [RecursionGuard.exit]
      rw [he, enter_of_not_mem h]

/-- Witness for C5 on the empty RenderPath with template id A. -/
theorem enter_exit_guard_properties_witness :
    (RecursionGuard.enter "A" []).1 = true ∧
    (RecursionGuard.enter "A" (RecursionGuard.enter "A" []).2).1 = false ∧
    (RecursionGuard.enter "A"
      (RecursionGuard.exit "A" (RecursionGuard.enter "A" []).2)).1 =
      true := by
  have h := (enter_exit_guard_properties "A" []).2 (by decide)
  exact ⟨h.1, h.2.2.1, h.2.2.2⟩

/-- C8: after any scoped render, including renders abandoned at any point
by exhausted fuel (cancellation / unmount), the RenderPath is restored to
its initial value, and the emitted trace holds exactly one exit for every
enter that returned true, for every template id. -/
theorem scoped_render_no_leaked_markers (fuel : Nat) (tree : RenderTree)
    (path : List String) :
    (renderScoped fuel tree path).2 = path ∧
    ∀ t : String,
      countExits t (renderScoped fuel tree path).1 =
        countTrueEnters t (renderScoped fuel tree path).1 :=
  ⟨renderScoped_path fuel tree path,
    fun t => renderScoped_balanced fuel tree path t⟩
